import Mathlib

/-!
Verification of the git repository state and synchronization subsystem of
garchetype: the describe-output parser (`parseDescription`), the repository
status probe (`Get`, from `internal/gitstat/status.go`), and the source
synchronizer (`setSource`, from `main.go`).

The external `git` executable is modelled by environments recording the raw
outcome of each underlying command invocation; the functions under
verification are translated from the Go source.
-/

namespace Garchetype
namespace Gitstat

/-!
## The describe regular expression

`status.go` compiles the pattern with
`re = regexp.MustCompile(` followed by the pattern
`^(.*)-(\d+)-g([0-9,a-f]+)$` (a hyphen-count-hash suffix after a free tag).

Since the pattern is anchored at both ends, matching is equivalent to
splitting the input as `tag ++ "-" ++ digits ++ "-g" ++ hex` where `digits`
is a nonempty run of ASCII digits, `hex` a nonempty run over `[0-9,a-f]`
(note: the class contains a comma), and `tag` is any run of non-newline
characters (`.` does not match a newline in Go's default mode).  Go's regexp
submatch semantics are those of a backtracking search with greedy `(.*)`:
the longest admissible `tag` wins, i.e. the *last* admissible suffix is
anchored.  `goFind` below implements exactly that search: at each input
character the engine first tries to extend the tag (covering all longer
tags) and only on failure stops the tag here, requiring a literal `-`
followed by the digits and hash groups.
-/

/-- Character class of `\d` (ASCII digits, as in Go's RE2). -/
def isDigitChar (c : Char) : Bool := '0' ≤ c && c ≤ '9'

/-- Character class of `[0-9,a-f]` from the describe pattern: digits, the
comma, and lowercase `a`-`f`. -/
def isHexCommaChar (c : Char) : Bool :=
  isDigitChar c || c == ',' || ('a' ≤ c && c ≤ 'f')

/-- Matches the part of the pattern after the tag's hyphen:
`(\d+)-g([0-9,a-f]+)$` applied to the remainder `l` of the input.  The
greedy `(\d+)` takes the maximal digit run (backtracking to a shorter run
is pointless: the following literal `-` is not a digit), then the literal
`-g`, then `([0-9,a-f]+)$` must consume the nonempty remainder exactly. -/
def checkSuffix (l : List Char) : Option (List Char × List Char) :=
  let ds := l.takeWhile isDigitChar
  match l.dropWhile isDigitChar with
  | c1 :: c2 :: hx =>
    if c1 = '-' ∧ c2 = 'g' then
      if ds = [] ∨ hx = [] ∨ ¬ (hx.all isHexCommaChar = true) then none
      else some (ds, hx)
    else none
  | _ => none

/-- Backtracking search for the anchored pattern: `tag` is the prefix
consumed by `(.*)` so far.  At each character the greedy `(.*)` first tries
to consume it (it may not consume a newline), and only if every longer tag
fails does the group stop here, the literal `-` match, and the suffix
groups run on the rest.  This yields the longest-tag (last-suffix) match,
exactly Go's submatch semantics for this pattern. -/
def goFind : List Char → List Char → Option (List Char × List Char × List Char)
  | _, [] => none
  | tag, c :: rest =>
    match (if c = '\n' then none else goFind (tag ++ [c]) rest) with
    | some r => some r
    | none =>
      if c = '-' then (checkSuffix rest).map (fun p => (tag, p.1, p.2))
      else none

/-- `re.FindStringSubmatch`: `none` models a `nil` result (no match);
`some (tag, digits, hex)` models the three capture groups. -/
def reFind (s : String) : Option (List Char × List Char × List Char) :=
  goFind [] s.data

lemma goFind_cons (tag : List Char) (c : Char) (rest : List Char) :
    goFind tag (c :: rest) =
      match (if c = '\n' then none else goFind (tag ++ [c]) rest) with
      | some r => some r
      | none =>
        if c = '-' then (checkSuffix rest).map (fun p => (tag, p.1, p.2))
        else none := rfl

/-- Numeric value of a decimal digit run. -/
def digitsToNat (l : List Char) : Nat :=
  l.foldl (fun a c => 10 * a + (c.toNat - 48)) 0

/-- Largest value of Go's `int` on a 64-bit platform. -/
def int64Max : Int := 9223372036854775807

/-- Smallest value of Go's `int` on a 64-bit platform. -/
def int64Min : Int := -9223372036854775808

/-- `strconv.Atoi` modelled for a 64-bit platform: an optional sign
followed by one or more ASCII digits, with the value required to fit in a
signed 64-bit integer; every other input (including an overflowing digit
string, which Atoi rejects with `ErrRange`) yields an error, modelled as
`none`. -/
def goAtoi (s : String) : Option Int :=
  match s.data with
  | [] => none
  | c :: r =>
    let p : Bool × List Char :=
      if c = '+' then (false, r)
      else if c = '-' then (true, r)
      else (false, c :: r)
    let ds := p.2
    if ds = [] then none
    else if ¬ (ds.all isDigitChar = true) then none
    else
      let v : Int := if p.1 then -(digitsToNat ds : Int) else (digitsToNat ds : Int)
      if v < int64Min then none
      else if int64Max < v then none
      else some v

/-- `Description` from `status.go`: the structured result of
`git describe --tags --long`. -/
structure Description where
  Tag : String
  AdditionalCommits : Int
  ShortHash : String
deriving DecidableEq, Repr

/-- The error values that can arise inside the `gitstat` package.
`wrapped p e` models `fmt.Errorf` with a `%w` verb: a message beginning
with the stable context `p`, wrapping the cause `e`. -/
inductive GitErr where
  | execError : GitErr
  | emptyOutput : GitErr
  | absError : GitErr
  | notInsideRepo : GitErr
  | parseFailed : GitErr
  | atoiError (input : String) : GitErr
  | wrapped (p : String) (cause : GitErr) : GitErr
deriving DecidableEq, Repr

/-- `parseDescription` from `status.go`: run the regular expression; a
`nil`/short submatch list is the error
`failed to parse` (backtick-quoted) `git describe result`
(`GitErr.parseFailed`); then `strconv.Atoi` on the digit group, whose
error is returned as-is; otherwise build the `Description` from the three
groups. -/
def parseDescription (s : String) : Except GitErr Description :=
  match reFind s with
  | none => .error .parseFailed
  | some (t, ds, hx) =>
    match goAtoi (String.mk ds) with
    | none => .error (.atoiError (String.mk ds))
    | some n => .ok ⟨String.mk t, n, String.mk hx⟩

/-- Render a natural number in decimal, most significant digit first.
`fuel` bounds the recursion and is structurally decreasing; called with
`fuel = n` it is never exhausted since a number has at most `n` digits. -/
def natToDecimalGo : Nat → Nat → List Char → List Char
  | 0, _, acc => acc
  | fuel + 1, n, acc =>
    if n = 0 then acc
    else natToDecimalGo fuel (n / 10) (Char.ofNat (48 + n % 10) :: acc)

/-- Canonical decimal rendering of a natural number (no leading zeros). -/
def natToDecimal (n : Nat) : List Char :=
  if n = 0 then ['0'] else natToDecimalGo n n []

/-- Canonical decimal rendering of an integer, as produced by Go's
integer formatting. -/
def intToDecimal : Int → List Char
  | .ofNat n => natToDecimal n
  | .negSucc n => '-' :: natToDecimal (n + 1)

/-- Rebuild a describe line from a parsed `Description`:
tag, hyphen, decimal commit count, `-g`, short hash. -/
def reconstructDescription (d : Description) : String :=
  d.Tag ++ "-" ++ String.mk (intToDecimal d.AdditionalCommits) ++ "-g" ++ d.ShortHash

/-!
## Facts about the describe parser
-/

lemma strData_append (a b : String) : (a ++ b).data = a.data ++ b.data := by
  cases a; cases b; rfl

lemma intToDecimal_coe (n : Nat) : intToDecimal (n : Int) = natToDecimal n := rfl

lemma isDigitChar_ne {c : Char} (h : isDigitChar c = true) :
    c ≠ '+' ∧ c ≠ '-' ∧ c ≠ '\n' ∧ c ≠ 'g' := by
  refine ⟨?_, ?_, ?_, ?_⟩ <;> rintro rfl <;> exact absurd h (by decide)

lemma isHexCommaChar_ne {c : Char} (h : isHexCommaChar c = true) :
    c ≠ '-' ∧ c ≠ '\n' := by
  refine ⟨?_, ?_⟩ <;> rintro rfl <;> exact absurd h (by decide)

lemma takeWhile_append_all (p : Char → Bool) (l1 : List Char) (x : Char) (l2 : List Char)
    (h1 : l1.all p = true) (h2 : p x = false) :
    (l1 ++ x :: l2).takeWhile p = l1 ∧ (l1 ++ x :: l2).dropWhile p = x :: l2 := by
  induction l1 with
  | nil => simp [List.takeWhile_cons, List.dropWhile_cons, h2]
  | cons a t ih =>
    simp only [List.all_cons, Bool.and_eq_true] at h1
    obtain ⟨ih1, ih2⟩ := ih h1.2
    simp [List.takeWhile_cons, List.dropWhile_cons, h1.1, ih1, ih2]

/-- The search never matches inside a pure `[0-9,a-f]` run: the pattern
needs a hyphen and the class has none. -/
lemma goFind_hexRun (hx : List Char) (h : hx.all isHexCommaChar = true) :
    ∀ acc, goFind acc hx = none := by
  induction hx with
  | nil => intro acc; rfl
  | cons c t ih =>
    intro acc
    simp only [List.all_cons, Bool.and_eq_true] at h
    have hc := isHexCommaChar_ne h.1
    simp [goFind, ih h.2, hc.1]

/-- The search never matches inside `g` followed by a `[0-9,a-f]` run. -/
lemma goFind_gRun (hx : List Char) (h : hx.all isHexCommaChar = true) :
    ∀ acc, goFind acc ('g' :: hx) = none := by
  intro acc
  simp [goFind, goFind_hexRun hx h]

/-- The search never matches inside `digits-g` followed by a hash run:
whatever hyphen it stops at, the digit group or the literal `-g` fails. -/
lemma goFind_dsRun (ds hx : List Char) (hds : ds.all isDigitChar = true)
    (hhx : hx.all isHexCommaChar = true) :
    ∀ acc, goFind acc (ds ++ '-' :: 'g' :: hx) = none := by
  induction ds with
  | nil =>
    intro acc
    have h1 : goFind (acc ++ ['-']) ('g' :: hx) = none := goFind_gRun hx hhx _
    have h2 : checkSuffix ('g' :: hx) = none := by
      cases hx with
      | nil => rfl
      | cons c2 t => rfl
    rw [List.nil_append, goFind_cons, if_neg (show ¬('-' : Char) = '\n' by decide), h1]
    simp [h2]
  | cons d t ih =>
    intro acc
    simp only [List.all_cons, Bool.and_eq_true] at hds
    have hd := isDigitChar_ne hds.1
    rw [List.cons_append, goFind_cons, if_neg hd.2.2.1, ih hds.2]
    exact if_neg hd.2.1

/-- Completeness and uniqueness of the match: on an input that decomposes
as `tag-digits-ghash` (with admissible groups), the search finds exactly
that decomposition, whatever prefix `acc` the tag group has already
consumed.  Longer tags are tried first and all fail (`goFind_dsRun`), so
the hyphen in front of `digits` is where `(.*)` stops. -/
lemma goFind_complete (ds hx : List Char)
    (hds1 : ds ≠ []) (hds2 : ds.all isDigitChar = true)
    (hhx1 : hx ≠ []) (hhx2 : hx.all isHexCommaChar = true) :
    ∀ t acc, '\n' ∉ t →
      goFind acc (t ++ '-' :: (ds ++ '-' :: 'g' :: hx)) = some (acc ++ t, ds, hx) := by
  intro t
  induction t with
  | nil =>
    intro acc _
    have h1 : goFind (acc ++ ['-']) (ds ++ '-' :: 'g' :: hx) = none :=
      goFind_dsRun ds hx hds2 hhx2 _
    have h2 : checkSuffix (ds ++ '-' :: 'g' :: hx) = some (ds, hx) := by
      obtain ⟨htw, hdw⟩ :=
        takeWhile_append_all isDigitChar ds '-' ('g' :: hx) hds2 (by decide)
      simp [checkSuffix, htw, hdw, hds1, hhx1, hhx2]
    simp [goFind, h1, h2]
  | cons c t' ih =>
    intro acc ht
    have hc : c ≠ '\n' := fun h => ht (h ▸ List.mem_cons_self c t')
    have ht' : '\n' ∉ t' := fun h => ht (List.mem_cons_of_mem _ h)
    have hrec := ih (acc ++ [c]) ht'
    simp only [List.cons_append]
    simp [goFind, hc, hrec, List.append_assoc]

/-- `strconv.Atoi` succeeds on a nonempty digit run whose value fits in a
64-bit integer, returning that value. -/
lemma goAtoi_digitRun (ds : List Char) (h1 : ds ≠ []) (h2 : ds.all isDigitChar = true)
    (h3 : (digitsToNat ds : Int) ≤ int64Max) :
    goAtoi (String.mk ds) = some (digitsToNat ds) := by
  cases ds with
  | nil => exact absurd rfl h1
  | cons c r =>
    have hall := h2
    simp only [List.all_cons, Bool.and_eq_true] at hall
    have hc := isDigitChar_ne hall.1
    have hnn : (0 : Int) ≤ (digitsToNat (c :: r) : Int) := Int.ofNat_nonneg _
    have hmin : ¬ ((digitsToNat (c :: r) : Int) < int64Min) := by
      simp only [int64Min]; omega
    have hmax : ¬ (int64Max < (digitsToNat (c :: r) : Int)) := not_lt.mpr h3
    simp [goAtoi, hc.1, hc.2.1, h2, hmin, hmax]

/-- C1 (amended): for every line `tag-digits-ghash` with an admissible
tag (no newline), a nonempty digit group written canonically (no leading
zeros, value within a 64-bit int), and a nonempty `[0-9,a-f]` group,
`parseDescription` anchors the (unique, hence last) such suffix, takes
everything before it as the tag, and reconstructing
`tag-count-ghash` from the parsed `Description` yields back the original
line. -/
theorem parseDescription_anchors_last_suffix_roundtrip
    (t ds hx : List Char)
    (ht : '\n' ∉ t)
    (hds1 : ds ≠ []) (hds2 : ds.all isDigitChar = true)
    (hcanon : natToDecimal (digitsToNat ds) = ds)
    (hrange : (digitsToNat ds : Int) ≤ int64Max)
    (hhx1 : hx ≠ []) (hhx2 : hx.all isHexCommaChar = true) :
    parseDescription (String.mk (t ++ '-' :: (ds ++ '-' :: 'g' :: hx)))
      = .ok ⟨String.mk t, (digitsToNat ds : Int), String.mk hx⟩ ∧
    reconstructDescription ⟨String.mk t, (digitsToNat ds : Int), String.mk hx⟩
      = String.mk (t ++ '-' :: (ds ++ '-' :: 'g' :: hx)) := by
  have hre : reFind (String.mk (t ++ '-' :: (ds ++ '-' :: 'g' :: hx))) = some (t, ds, hx) := by
    simpa [reFind] using goFind_complete ds hx hds1 hds2 hhx1 hhx2 t [] ht
  constructor
  · simp [parseDescription, hre, goAtoi_digitRun ds hds1 hds2 hrange]
  · apply String.ext
    simp only [reconstructDescription, strData_append, intToDecimal_coe, hcanon]
    show t ++ "-".data ++ ds ++ "-g".data ++ hx = t ++ '-' :: (ds ++ '-' :: 'g' :: hx)
    simp

/-- C1 witness: the spec's own example, with a hyphen inside the tag. -/
theorem parseDescription_anchors_last_suffix_roundtrip_witness :
    parseDescription "v1.2.0-rc-1-3-gabc123f"
      = .ok ⟨"v1.2.0-rc-1", 3, "abc123f"⟩ ∧
    reconstructDescription ⟨"v1.2.0-rc-1", 3, "abc123f"⟩ = "v1.2.0-rc-1-3-gabc123f" :=
  parseDescription_anchors_last_suffix_roundtrip
    "v1.2.0-rc-1".data ['3'] "abc123f".data
    (by decide) (by decide) (by decide) (by decide) (by decide) (by decide) (by decide)

/-- C1 counterexample: a well-formed line whose digit group has a leading
zero parses, but the reconstructed line is not the original, so the
claimed roundtrip fails as universally stated. -/
theorem parseDescription_roundtrip_leading_zero_cex :
    parseDescription "v1-03-gabc123f" = .ok ⟨"v1", 3, "abc123f"⟩ ∧
    reconstructDescription ⟨"v1", 3, "abc123f"⟩ = "v1-3-gabc123f" ∧
    ("v1-3-gabc123f" : String) ≠ "v1-03-gabc123f" :=
  ⟨rfl, rfl, by decide⟩

/-- C8: an input the regular expression rejects, or whose digit group
`strconv.Atoi` rejects, makes `parseDescription` fail with an error — an
`Except.error` result carries no `Description` at all, so no partial
value is returned. -/
theorem parseDescription_fails_no_match_or_bad_int (s : String)
    (h : reFind s = none ∨
         ∃ t ds hx, reFind s = some (t, ds, hx) ∧ goAtoi (String.mk ds) = none) :
    ∃ e, parseDescription s = .error e := by
  rcases h with h | ⟨t, ds, hx, h1, h2⟩
  · exact ⟨.parseFailed, by simp [parseDescription, h]⟩
  · exact ⟨.atoiError (String.mk ds), by simp [parseDescription, h1, h2]⟩

/-- C8 witness: a line with no `-N-ghex` suffix at all. -/
theorem parseDescription_fails_no_match_or_bad_int_witness :
    ∃ e, parseDescription "2fe2bf8" = .error e :=
  parseDescription_fails_no_match_or_bad_int "2fe2bf8" (Or.inl (by decide))

/-- C10 (amended): a describe line of the shape `-digits-ghash` with
nothing before the first hyphen parses successfully — the tag group may
be empty — provided the digit group's value fits in a 64-bit int. -/
theorem parseDescription_empty_tag_accepted (ds hx : List Char)
    (hds1 : ds ≠ []) (hds2 : ds.all isDigitChar = true)
    (hrange : (digitsToNat ds : Int) ≤ int64Max)
    (hhx1 : hx ≠ []) (hhx2 : hx.all isHexCommaChar = true) :
    parseDescription (String.mk ('-' :: (ds ++ '-' :: 'g' :: hx)))
      = .ok ⟨"", (digitsToNat ds : Int), String.mk hx⟩ := by
  have hre : reFind (String.mk ('-' :: (ds ++ '-' :: 'g' :: hx))) = some ([], ds, hx) := by
    simpa [reFind] using goFind_complete ds hx hds1 hds2 hhx1 hhx2 [] [] (by simp)
  simp [parseDescription, hre, goAtoi_digitRun ds hds1 hds2 hrange]

/-- C10 witness: the claim's own example input. -/
theorem parseDescription_empty_tag_accepted_witness :
    parseDescription "-3-gabc123f" = .ok ⟨"", 3, "abc123f"⟩ :=
  parseDescription_empty_tag_accepted ['3'] "abc123f".data
    (by decide) (by decide) (by decide) (by decide) (by decide)

/-- C10 counterexample: an input of the claimed shape `-N-ghex` whose `N`
overflows a 64-bit int is rejected by `strconv.Atoi`, so parsing does not
succeed, contradicting the universally stated claim. -/
theorem parseDescription_empty_tag_overflow_cex :
    ("-99999999999999999999-gff" : String)
      = String.mk ('-' :: ("99999999999999999999".data ++ '-' :: 'g' :: "ff".data)) ∧
    parseDescription "-99999999999999999999-gff"
      = .error (.atoiError "99999999999999999999") :=
  ⟨rfl, rfl⟩

/-!
## The status probe

`Get` in `status.go` shells out to `git`.  Each external invocation is
modelled by a field of `GitEnv` holding the raw outcome of the underlying
command: `none` models `cmd.Output()` returning an error, `some out` a
successful run with raw standard output `out`.  `execGit` then reproduces
the Go helper of the same name: trim the output, and turn a trimmed-empty
result into the `errEmptyOutput` sentinel.
-/

/-- `unicode.IsSpace` as used by `bytes.TrimSpace`, restricted to the
Latin-1 range (git plumbing output is ASCII; the White_Space code points
above U+00FF are not modelled). -/
def goIsSpace (c : Char) : Bool :=
  c = ' ' || c = '\t' || c = '\n' || c = '\x0b' || c = '\x0c' || c = '\r' ||
  c = '\u0085' || c = '\u00A0'

/-- `bytes.TrimSpace` on a character list: drop leading and trailing
whitespace. -/
def trimList (l : List Char) : List Char :=
  ((l.dropWhile goIsSpace).reverse.dropWhile goIsSpace).reverse

/-- `bytes.TrimSpace` on a string. -/
def trimSpace (s : String) : String :=
  String.mk (trimList s.data)

/-- `execGit` from `status.go`, applied to the raw outcome of the
underlying command: an execution failure is passed through; a successful
run has its output trimmed, and a trimmed-empty output becomes the
`errEmptyOutput` sentinel. -/
def execGit (raw : Option String) : Except GitErr String :=
  match raw with
  | none => .error .execError
  | some out =>
    let t := trimSpace out
    if t = "" then .error .emptyOutput else .ok t

/-- `Status` from `status.go`. -/
structure Status where
  Branch : String
  Description : Description
  Hash : String
  ShortHash : String
  AuthorDate : String
  Dirty : Bool
deriving DecidableEq, Repr

/-- Raw outcomes of the external commands `Get` runs, in program order:
`filepath.Abs(".")`, `git rev-parse --is-inside-work-tree` (a bare
success/failure), then the `execGit` calls for branch, hash, short hash,
author date, porcelain status, and describe. -/
structure GitEnv where
  absDir : Option String
  insideWorkTree : Bool
  branchOut : Option String
  hashOut : Option String
  shortHashOut : Option String
  authorDateOut : Option String
  statusOut : Option String
  describeOut : Option String
deriving DecidableEq, Repr

/-- The `git status --porcelain` step of `Get`: the line
`if err != nil && !errors.Is(err, errEmptyOutput) { return nil, err }`
keeps going with `o = ""` exactly when the failure is the empty-output
sentinel, and aborts on any other failure. -/
def statusOutcome : Except GitErr String → Except GitErr String
  | .ok o => .ok o
  | .error .emptyOutput => .ok ""
  | .error e => .error e

/-- The stable context `Get` wraps every failure with
(`fmt.Errorf` on the pattern `git status failed` + `%w`). -/
def gitStatusFailed : String := "git status failed"

/-- The branch step of `Get`: `s.Branch, err = execGit(...)` followed by
`if err != nil { s.Branch = "" }` — a lookup failure degrades to an empty
branch name. -/
def branchOf : Except GitErr String → String
  | .ok b => b
  | .error _ => ""

/-- The body of `Get` before the deferred error wrapping: a pair of the
returned `*Status` (`none` models `nil`) and the returned `error`
(`none` models `nil`).  Each early `return nil, err` is a `(none, some e)`
arm; branch-lookup failure degrades to an empty branch; describe failure
returns the status built so far with no error; a describe parse failure
returns that status together with the parse error. -/
def GetRaw (env : GitEnv) : Option Status × Option GitErr :=
  match env.absDir with
  | none => (none, some .absError)
  | some _ =>
  if env.insideWorkTree = false then (none, some .notInsideRepo)
  else
  let branch := branchOf (execGit env.branchOut)
  match execGit env.hashOut with
  | .error e => (none, some e)
  | .ok hash =>
  match execGit env.shortHashOut with
  | .error e => (none, some e)
  | .ok shortHash =>
  match execGit env.authorDateOut with
  | .error e => (none, some e)
  | .ok authorDate =>
  match statusOutcome (execGit env.statusOut) with
  | .error e => (none, some e)
  | .ok o =>
  let dirty := !(o == "" || o == "\n" || o == "\r\n")
  let base : Status := ⟨branch, ⟨"", 0, ""⟩, hash, shortHash, authorDate, dirty⟩
  match execGit env.describeOut with
  | .error _ => (some base, none)
  | .ok o2 =>
    match parseDescription o2 with
    | .error e => (some base, some e)
    | .ok d => (some { base with Description := d }, none)

/-- `Get` from `status.go`: the body above, with the deferred
`err = fmt.Errorf(...: %w, err)` wrapping any non-nil error in the stable
`git status failed` context. -/
def Get (env : GitEnv) : Option Status × Option GitErr :=
  ((GetRaw env).1, (GetRaw env).2.map (GitErr.wrapped gitStatusFailed))

/-!
## Facts about the status probe
-/

/-- Boolean success of an `execGit`-style result. -/
def exOk : Except GitErr String → Bool
  | .ok _ => true
  | .error _ => false

lemma dropWhile_eq_cons_head (p : Char → Bool) (l : List Char) (c : Char) (t : List Char)
    (h : l.dropWhile p = c :: t) : p c = false := by
  induction l with
  | nil => simp [List.dropWhile] at h
  | cons a l' ih =>
    by_cases ha : p a
    · rw [List.dropWhile_cons_of_pos ha] at h
      exact ih h
    · rw [List.dropWhile_cons_of_neg ha] at h
      injection h with h1 h2
      rw [← h1] at *
      simpa using ha

/-- A trimmed output never consists of a trailing newline: `bytes.TrimSpace`
would have removed it.  Hence the two dead comparisons in the `Dirty`
computation. -/
lemma trimSpace_ne_newline (s : String) :
    trimSpace s ≠ "\n" ∧ trimSpace s ≠ "\r\n" := by
  constructor <;> intro h
  · have hd : trimList s.data = ['\n'] := congrArg String.data h
    have h2 : (s.data.dropWhile goIsSpace).reverse.dropWhile goIsSpace = ['\n'] := by
      have := congrArg List.reverse hd
      simpa [trimList] using this
    have := dropWhile_eq_cons_head goIsSpace _ '\n' [] h2
    simp [goIsSpace] at this
  · have hd : trimList s.data = ['\r', '\n'] := congrArg String.data h
    have h2 : (s.data.dropWhile goIsSpace).reverse.dropWhile goIsSpace = ['\n', '\r'] := by
      have := congrArg List.reverse hd
      simpa [trimList] using this
    have := dropWhile_eq_cons_head goIsSpace _ '\n' ['\r'] h2
    simp [goIsSpace] at this

/-- Whatever the describe step does, once the mandatory queries have
succeeded the probe returns some `Status` whose `Dirty` field is computed
from the porcelain output `o`. -/
lemma getStatus_dirty (env : GitEnv) (d hash shortHash authorDate o : String)
    (habs : env.absDir = some d) (hwt : env.insideWorkTree = true)
    (hh : execGit env.hashOut = .ok hash)
    (hsh : execGit env.shortHashOut = .ok shortHash)
    (had : execGit env.authorDateOut = .ok authorDate)
    (hst : statusOutcome (execGit env.statusOut) = .ok o) :
    ∃ st, (Get env).1 = some st ∧
      st.Dirty = !(o == "" || o == "\n" || o == "\r\n") := by
  rcases hde : execGit env.describeOut with e2 | o2
  · exact ⟨⟨branchOf (execGit env.branchOut), ⟨"", 0, ""⟩, hash, shortHash, authorDate,
      !(o == "" || o == "\n" || o == "\r\n")⟩,
      by simp [Get, GetRaw, habs, hwt, hh, hsh, had, hst, hde], rfl⟩
  · rcases hp : parseDescription o2 with e3 | dd
    · exact ⟨⟨branchOf (execGit env.branchOut), ⟨"", 0, ""⟩, hash, shortHash, authorDate,
        !(o == "" || o == "\n" || o == "\r\n")⟩,
        by simp [Get, GetRaw, habs, hwt, hh, hsh, had, hst, hde, hp], rfl⟩
    · exact ⟨⟨branchOf (execGit env.branchOut), dd, hash, shortHash, authorDate,
        !(o == "" || o == "\n" || o == "\r\n")⟩,
        by simp [Get, GetRaw, habs, hwt, hh, hsh, had, hst, hde, hp], rfl⟩

/-- C9: probing a directory that is not inside a version-controlled work
tree fails with the not-a-repository error (wrapped in the stable
repository-status context) and produces no `Status` (a `nil` pointer). -/
theorem get_fails_not_inside_work_tree (env : GitEnv) (d : String)
    (habs : env.absDir = some d) (hwt : env.insideWorkTree = false) :
    Get env = (none, some (.wrapped gitStatusFailed .notInsideRepo)) := by
  simp [Get, GetRaw, habs, hwt]

/-- C9 witness. -/
theorem get_fails_not_inside_work_tree_witness :
    Get ⟨some "/tmp/plain", false, none, none, none, none, none, none⟩
      = (none, some (.wrapped gitStatusFailed .notInsideRepo)) :=
  get_fails_not_inside_work_tree
    ⟨some "/tmp/plain", false, none, none, none, none, none, none⟩
    "/tmp/plain" rfl rfl

/-- C6: every error `Get` returns is wrapped in the stable
repository-status context with the original cause preserved inside the
wrapper. -/
theorem get_errors_wrapped_with_stable_context (env : GitEnv)
    (st : Option Status) (e : GitErr)
    (h : Get env = (st, some e)) :
    ∃ c, e = .wrapped gitStatusFailed c := by
  have h2 : (GetRaw env).2.map (GitErr.wrapped gitStatusFailed) = some e := by
    have := congrArg Prod.snd h
    simpa [Get] using this
  rcases hr : (GetRaw env).2 with _ | c
  · rw [hr] at h2
    simp at h2
  · rw [hr] at h2
    simp at h2
    exact ⟨c, h2.symm⟩

/-- C6 witness: a probe that fails the work-tree precondition. -/
theorem get_errors_wrapped_with_stable_context_witness :
    ∃ c, GitErr.wrapped gitStatusFailed .notInsideRepo
      = .wrapped gitStatusFailed c :=
  get_errors_wrapped_with_stable_context
    ⟨some "/tmp/plain2", false, none, none, none, none, none, none⟩ none
    (.wrapped gitStatusFailed .notInsideRepo) rfl

/-- C5: once the mandatory queries succeed, a failing describe primitive
is not fatal — the probe returns the `Status` built so far with a
zero-value `Description` and no error — while a describe output that
fails to parse yields that partial `Status` together with the (wrapped)
parse error. -/
theorem get_describe_failure_nonfatal_parse_failure_error
    (env : GitEnv) (d hash shortHash authorDate o : String)
    (habs : env.absDir = some d) (hwt : env.insideWorkTree = true)
    (hh : execGit env.hashOut = .ok hash)
    (hsh : execGit env.shortHashOut = .ok shortHash)
    (had : execGit env.authorDateOut = .ok authorDate)
    (hst : statusOutcome (execGit env.statusOut) = .ok o) :
    (∀ e, execGit env.describeOut = .error e →
      ∃ st, Get env = (some st, none) ∧ st.Description = ⟨"", 0, ""⟩ ∧
        st.Hash = hash ∧ st.ShortHash = shortHash ∧ st.AuthorDate = authorDate) ∧
    (∀ o2 e, execGit env.describeOut = .ok o2 → parseDescription o2 = .error e →
      ∃ st, Get env = (some st, some (.wrapped gitStatusFailed e)) ∧
        st.Description = ⟨"", 0, ""⟩ ∧ st.Hash = hash) := by
  constructor
  · intro e hde
    exact ⟨⟨branchOf (execGit env.branchOut), ⟨"", 0, ""⟩, hash, shortHash, authorDate,
      !(o == "" || o == "\n" || o == "\r\n")⟩,
      by simp [Get, GetRaw, habs, hwt, hh, hsh, had, hst, hde], rfl, rfl, rfl, rfl⟩
  · intro o2 e hde hp
    exact ⟨⟨branchOf (execGit env.branchOut), ⟨"", 0, ""⟩, hash, shortHash, authorDate,
      !(o == "" || o == "\n" || o == "\r\n")⟩,
      by simp [Get, GetRaw, habs, hwt, hh, hsh, had, hst, hde, hp], rfl, rfl⟩

/-- C5 witness: a repository with no tags (describe execution fails),
probed successfully. -/
theorem get_describe_failure_nonfatal_witness :
    ∃ st, Get ⟨some "/repo", true, some "main", some "0ddba11", some "0ddba",
        some "2024-10-12T00:00:00", some "", none⟩ = (some st, none) ∧
      st.Description = ⟨"", 0, ""⟩ ∧ st.Hash = "0ddba11" ∧
      st.ShortHash = "0ddba" ∧ st.AuthorDate = "2024-10-12T00:00:00" :=
  (get_describe_failure_nonfatal_parse_failure_error
    ⟨some "/repo", true, some "main", some "0ddba11", some "0ddba",
      some "2024-10-12T00:00:00", some "", none⟩
    "/repo" "0ddba11" "0ddba"
    "2024-10-12T00:00:00" "" rfl rfl rfl rfl rfl rfl).1 .execError rfl

/-- C4 (amended): given the directory resolves and is inside a work tree,
the probe fails entirely (returns a `nil` status) exactly when one of the
mandatory queries fails: full hash, short hash, author date, or the
working-tree status query (modulo its empty-output escape).  Hash is not
the only mandatory field. -/
theorem get_nil_iff_mandatory_query_fails (env : GitEnv) (d : String)
    (habs : env.absDir = some d) (hwt : env.insideWorkTree = true) :
    (Get env).1 = none ↔
      (exOk (execGit env.hashOut) && exOk (execGit env.shortHashOut) &&
       exOk (execGit env.authorDateOut) &&
       exOk (statusOutcome (execGit env.statusOut))) = false := by
  rcases hh : execGit env.hashOut with e | hash
  · simp [Get, GetRaw, habs, hwt, hh, exOk]
  rcases hsh : execGit env.shortHashOut with e | shortHash
  · simp [Get, GetRaw, habs, hwt, hh, hsh, exOk]
  rcases had : execGit env.authorDateOut with e | authorDate
  · simp [Get, GetRaw, habs, hwt, hh, hsh, had, exOk]
  rcases hst : statusOutcome (execGit env.statusOut) with e | o
  · simp [Get, GetRaw, habs, hwt, hh, hsh, had, hst, exOk]
  rcases hde : execGit env.describeOut with e2 | o2
  · simp [Get, GetRaw, habs, hwt, hh, hsh, had, hst, hde, exOk]
  rcases hp : parseDescription o2 with e3 | dd
  · simp [Get, GetRaw, habs, hwt, hh, hsh, had, hst, hde, hp, exOk]
  · simp [Get, GetRaw, habs, hwt, hh, hsh, had, hst, hde, hp, exOk]

/-- C4 witness: all mandatory queries succeed, so the probe does not fail
entirely. -/
theorem get_nil_iff_mandatory_query_fails_witness :
    (Get ⟨some "/repo2", true, some "main", some "4b1d5c", some "4b1d",
        some "2024-10-12T01:00:00", some "", none⟩).1 = none ↔
      (exOk (execGit (some "4b1d5c")) && exOk (execGit (some "4b1d")) &&
       exOk (execGit (some "2024-10-12T01:00:00")) &&
       exOk (statusOutcome (execGit (some "")))) = false :=
  get_nil_iff_mandatory_query_fails
    ⟨some "/repo2", true, some "main", some "4b1d5c", some "4b1d",
      some "2024-10-12T01:00:00", some "", none⟩
    "/repo2" rfl rfl

/-- C4 counterexample: the short-hash query fails while the full hash is
obtainable inside a work tree, and the probe aborts entirely — so the
full hash is not the only mandatory field and other query failures do
abort the probe. -/
theorem get_aborts_on_short_hash_failure_cex :
    Get ⟨some "/repo3", true, some "main", some "f00dfeed", none,
        some "2024-10-12T02:00:00", some "", none⟩
      = (none, some (.wrapped gitStatusFailed .execError)) ∧
    execGit (some "f00dfeed") = .ok "f00dfeed" :=
  ⟨rfl, rfl⟩

/-- C7 (amended): with the mandatory queries succeeding and the porcelain
status command producing raw output `raw`, the probe's `Dirty` flag is
true exactly when `raw` is nonempty after trimming leading and trailing
whitespace (so `""`, `"\n"` and `"\r\n"` are clean, but so is any other
all-whitespace report). -/
theorem get_dirty_iff_trimmed_nonempty
    (env : GitEnv) (d hash shortHash authorDate raw : String)
    (habs : env.absDir = some d) (hwt : env.insideWorkTree = true)
    (hh : execGit env.hashOut = .ok hash)
    (hsh : execGit env.shortHashOut = .ok shortHash)
    (had : execGit env.authorDateOut = .ok authorDate)
    (hraw : env.statusOut = some raw) :
    ∃ st, (Get env).1 = some st ∧ (st.Dirty = true ↔ trimSpace raw ≠ "") := by
  by_cases htr : trimSpace raw = ""
  · have hst : statusOutcome (execGit env.statusOut) = .ok "" := by
      simp [execGit, hraw, htr, statusOutcome]
    obtain ⟨st, h1, h2⟩ := getStatus_dirty env d hash shortHash authorDate ""
      habs hwt hh hsh had hst
    exact ⟨st, h1, by simp [h2, htr]⟩
  · have hst : statusOutcome (execGit env.statusOut) = .ok (trimSpace raw) := by
      simp [execGit, hraw, htr, statusOutcome]
    obtain ⟨st, h1, h2⟩ := getStatus_dirty env d hash shortHash authorDate
      (trimSpace raw) habs hwt hh hsh had hst
    have hne := trimSpace_ne_newline raw
    exact ⟨st, h1, by simp [h2, htr, hne.1, hne.2]⟩

/-- C7 witness: a genuinely dirty report. -/
theorem get_dirty_iff_trimmed_nonempty_witness :
    ∃ st, (Get ⟨some "/repo4", true, some "main", some "ca11ab1e", some "ca11a",
        some "2024-10-12T03:00:00", some " M main.go\n", none⟩).1 = some st ∧
      (st.Dirty = true ↔ trimSpace " M main.go\n" ≠ "") :=
  get_dirty_iff_trimmed_nonempty
    ⟨some "/repo4", true, some "main", some "ca11ab1e", some "ca11a",
      some "2024-10-12T03:00:00", some " M main.go\n", none⟩
    "/repo4" "ca11ab1e" "ca11a"
    "2024-10-12T03:00:00" " M main.go\n" rfl rfl rfl rfl rfl rfl

/-- C7 counterexample: a status report consisting of a single space is
neither `""`, `"\n"` nor `"\r\n"`, yet the probe classifies it clean,
because the code trims all whitespace, not only trailing newlines. -/
theorem get_dirty_whitespace_output_cex :
    (∃ st, (Get ⟨some "/repo5", true, some "main", some "5ca1ab1e", some "5ca1a",
        some "2024-10-12T04:00:00", some " ", none⟩).1 = some st ∧
      st.Dirty = false) ∧
    (" " : String) ≠ "" ∧ (" " : String) ≠ "\n" ∧ (" " : String) ≠ "\r\n" :=
  ⟨⟨⟨"main", ⟨"", 0, ""⟩, "5ca1ab1e", "5ca1a", "2024-10-12T04:00:00", false⟩,
    rfl, rfl⟩, by decide, by decide, by decide⟩

end Gitstat

namespace Main

/-!
## The source synchronizer

`setSource` in `main.go` drives the external git-module library
(`git.Open`, `git.Clone`, `Repository.RemoteGetURL`, `Fetch`, `Pull`).
Each library call's outcome is a field of `SyncEnv`; errors are modelled
by their message strings, since the code classifies them by substring
matching.  `setSource` additionally returns the ordered trace of library
calls it made (`GitCall`), so that statements about *which* operations ran
(and with which clone options) are expressible, and the list of warnings
printed to standard output.
-/

/-- Substring test on character lists (`strings.Contains`). -/
def listInfix (needle : List Char) : List Char → Bool
  | [] => needle.isEmpty
  | c :: t => needle.isPrefixOf (c :: t) || listInfix needle t

/-- `strings.Contains s sub`. -/
def containsSub (s sub : String) : Bool := listInfix sub.data s.data

/-- The substring `setSource` looks for to classify a network failure as
an unresolved host. -/
def sshUnresolvedMsg : String := "ssh: Could not resolve hostname"

/-- The user-facing warning printed when the remote cannot be reached. -/
def warnCouldNotConnect : String := "🚨 Could not connect to remote repository."

/-- The two fields of `Config` that `setSource` reads (the remaining
fields of the Go struct — feature, archetype, transformation flags — are
not consulted by the synchronizer). -/
structure Config where
  SourceDir : String
  SourceRepo : String
deriving DecidableEq, Repr

/-- Outcome of `git.Open(cfg.SourceDir)`: opened, an error matching
`os.ErrNotExist` (`errors.Is`), or any other error with its message. -/
inductive OpenResult where
  | opened : OpenResult
  | errNotExist : OpenResult
  | errOther (msg : String) : OpenResult
deriving DecidableEq, Repr

/-- Raw outcomes of the git-module library calls `setSource` can make:
`none` models a `nil` error, `some msg` an error with message `msg`.
`remoteErr` is the error of `RemoteGetURL("origin")`. -/
structure SyncEnv where
  openRes : OpenResult
  cloneErr : Option String
  remoteErr : Option String
  fetchErr : Option String
  pullErr : Option String
deriving DecidableEq, Repr

/-- One git-module library call, as issued by `setSource`.  The `clone`
entry records the options the call site passes: `main.go` invokes
`git.Clone(cfg.SourceRepo, cfg.SourceDir)` with no `CloneOptions`
argument, so the library's zero-value options apply — no `--depth`
(`depth = none`) and no `--branch`/single-branch restriction
(`branch = none`). -/
inductive GitCall where
  | openRepo (dir : String) : GitCall
  | clone (url dir : String) (depth : Option Nat) (branch : Option String) : GitCall
  | remoteGetURL (name : String) : GitCall
  | fetch : GitCall
  | pull : GitCall
deriving DecidableEq, Repr

/-- `setSource` from `main.go`, returning the trace of library calls, the
warnings printed to `stdout`, and the result (`.error msg` models a
non-nil returned error with message `msg`).

The Go control flow: an empty `SourceDir` is an immediate error.
`git.Open` failing with anything but `os.ErrNotExist` propagates.  On
`ErrNotExist`: no `SourceRepo` is the `source directory not found` error;
otherwise clone, translating an unresolved-host failure into a warning
plus that same `source directory not found` error and propagating any
other failure.  On a successful open: if `RemoteGetURL("origin")`
succeeds, fetch (an unresolved-host failure warns and returns *success*;
any other failure propagates; a pull only happens after a successful
fetch and its failure propagates); if `RemoteGetURL` fails with a message
containing neither `not a git repository` nor `No such remote`, that
error propagates, otherwise the synchronizer is a no-op success. -/
def setSource (cfg : Config) (env : SyncEnv) :
    List GitCall × List String × Except String Unit :=
  if cfg.SourceDir = "" then ([], [], .error "source directory is required")
  else
    match env.openRes with
    | .errOther msg => ([.openRepo cfg.SourceDir], [], .error msg)
    | .errNotExist =>
      if cfg.SourceRepo = "" then
        ([.openRepo cfg.SourceDir], [],
          .error ("source directory not found: " ++ cfg.SourceDir))
      else
        let calls := [.openRepo cfg.SourceDir,
          .clone cfg.SourceRepo cfg.SourceDir none none]
        match env.cloneErr with
        | none => (calls, [], .ok ())
        | some msg =>
          if containsSub msg sshUnresolvedMsg then
            (calls, [warnCouldNotConnect],
              .error ("source directory not found: " ++ cfg.SourceDir))
          else (calls, [], .error msg)
    | .opened =>
      match env.remoteErr with
      | none =>
        let calls := [.openRepo cfg.SourceDir, .remoteGetURL "origin", .fetch]
        match env.fetchErr with
        | some msg =>
          if containsSub msg sshUnresolvedMsg then
            (calls, [warnCouldNotConnect], .ok ())
          else (calls, [], .error msg)
        | none =>
          match env.pullErr with
          | some msg => (calls ++ [.pull], [], .error msg)
          | none => (calls ++ [.pull], [], .ok ())
      | some msg =>
        let calls := [.openRepo cfg.SourceDir, .remoteGetURL "origin"]
        if !(containsSub msg "not a git repository") &&
           !(containsSub msg "No such remote") then
          (calls, [], .error msg)
        else (calls, [], .ok ())

/-- C2: the unresolved-host asymmetry.  For an existing repository with an
`origin` remote, a fetch failing with an unresolved host name warns and
returns success, with no pull attempted (the pull outcome is irrelevant
and `pull` is absent from the call trace), leaving the local copy as it
was.  For a missing directory, a clone failing with an unresolved host
name warns and fails with the `source directory not found` error. -/
theorem setSource_unresolved_host_asymmetry
    (cfg : Config) (env : SyncEnv) (msg : String)
    (hdir : cfg.SourceDir ≠ "")
    (hmsg : containsSub msg sshUnresolvedMsg = true) :
    (env.openRes = .opened → env.remoteErr = none → env.fetchErr = some msg →
      setSource cfg env =
        ([.openRepo cfg.SourceDir, .remoteGetURL "origin", .fetch],
          [warnCouldNotConnect], .ok ()) ∧
      GitCall.pull ∉ (setSource cfg env).1) ∧
    (env.openRes = .errNotExist → cfg.SourceRepo ≠ "" → env.cloneErr = some msg →
      setSource cfg env =
        ([.openRepo cfg.SourceDir,
          .clone cfg.SourceRepo cfg.SourceDir none none],
          [warnCouldNotConnect],
          .error ("source directory not found: " ++ cfg.SourceDir))) := by
  constructor
  · intro hop hrem hf
    have he : setSource cfg env =
        ([.openRepo cfg.SourceDir, .remoteGetURL "origin", .fetch],
          [warnCouldNotConnect], .ok ()) := by
      simp [setSource, hdir, hop, hrem, hf, hmsg]
    refine ⟨he, ?_⟩
    rw [he]
    simp
  · intro hop hrepo hcl
    simp [setSource, hdir, hop, hrepo, hcl, hmsg]

/-- C2 witness: both sides of the asymmetry at a concrete configuration
and failing message. -/
theorem setSource_unresolved_host_asymmetry_witness :
    (SyncEnv.openRes ⟨.opened, none, none, some "ssh: Could not resolve hostname example.com", none⟩ = .opened →
      SyncEnv.remoteErr ⟨.opened, none, none, some "ssh: Could not resolve hostname example.com", none⟩ = none →
      SyncEnv.fetchErr ⟨.opened, none, none, some "ssh: Could not resolve hostname example.com", none⟩
        = some "ssh: Could not resolve hostname example.com" →
      setSource ⟨"/src", "git@example.com:a/b.git"⟩
          ⟨.opened, none, none, some "ssh: Could not resolve hostname example.com", none⟩ =
        ([.openRepo "/src", .remoteGetURL "origin", .fetch],
          [warnCouldNotConnect], .ok ()) ∧
      GitCall.pull ∉ (setSource ⟨"/src", "git@example.com:a/b.git"⟩
          ⟨.opened, none, none, some "ssh: Could not resolve hostname example.com", none⟩).1) ∧
    (SyncEnv.openRes ⟨.opened, none, none, some "ssh: Could not resolve hostname example.com", none⟩ = .errNotExist →
      ("git@example.com:a/b.git" : String) ≠ "" →
      SyncEnv.cloneErr ⟨.opened, none, none, some "ssh: Could not resolve hostname example.com", none⟩
        = some "ssh: Could not resolve hostname example.com" →
      setSource ⟨"/src", "git@example.com:a/b.git"⟩
          ⟨.opened, none, none, some "ssh: Could not resolve hostname example.com", none⟩ =
        ([.openRepo "/src",
          .clone "git@example.com:a/b.git" "/src" none none],
          [warnCouldNotConnect],
          .error ("source directory not found: " ++ "/src"))) :=
  setSource_unresolved_host_asymmetry
    ⟨"/src", "git@example.com:a/b.git"⟩
    ⟨.opened, none, none, some "ssh: Could not resolve hostname example.com", none⟩
    "ssh: Could not resolve hostname example.com"
    (by decide) (by decide)

/-- C3: what the code actually does at the claim's failing input.  With an
absent local directory and no remote URL, `setSource` fails immediately
with the `source directory not found` error; with a remote URL it issues
exactly one clone call — but that call passes no `CloneOptions`, so the
clone is made with no depth limit (`depth = none`, not `some 1`) and no
single-branch restriction (`branch = none`), contradicting the claimed
shallow single-branch clone. -/
theorem setSource_clone_passes_no_options :
    setSource ⟨"/src2", ""⟩ ⟨.errNotExist, none, none, none, none⟩
      = ([.openRepo "/src2"], [], .error "source directory not found: /src2") ∧
    setSource ⟨"/src2", "git@example.com:a/b.git"⟩ ⟨.errNotExist, none, none, none, none⟩
      = ([.openRepo "/src2",
          .clone "git@example.com:a/b.git" "/src2" none none], [], .ok ()) ∧
    (none : Option Nat) ≠ some 1 :=
  ⟨rfl, rfl, by decide⟩

end Main
end Garchetype
